import Mathlib

/-!
Shallow embedding of the backend of the predictive-sales-analytics
repository (the Express server in src/unnamed/part_000).

The embedding models:
  * a fragment of JavaScript value semantics (truthiness, isNaN with
    Number coercion, parseFloat, parseInt) over Rat instead of IEEE
    floats, with NaN represented as Option.none;
  * a small JSON parser standing in for JSON.parse (objects, arrays,
    strings with the common escapes, numbers with fraction and exponent,
    null and booleans; the exotic corners of JS numeric syntax such as
    hex literals and Infinity are not modelled, no claim exercises them);
  * the loadData row normalization and filtering pipeline;
  * the /api/upload handler: cleanup loop, dataset-reference update,
    and the close handler of the training process, with the asynchrony
    of the stream-based reload made explicit as a pending-task queue;
  * the /api/predict close handler: brace extraction and JSON parse.
-/

/-- First-match association-list lookup, modelling JS object property
access (object keys are unique, so first match is the match). -/
def lookupRow (row : List (String × String)) (k : String) : Option String :=
  match row with
  | [] => none
  | (k2, v) :: rest => if k2 = k then some v else lookupRow rest k

/-- Suffix test on strings, modelling String.prototype.endsWith
(structurally, so that it evaluates inside proofs). -/
def endsWithJS (s suffix : String) : Bool :=
  s.data.reverse.take suffix.length == suffix.data.reverse

/-- Substring containment on character lists, modelling
String.prototype.includes. -/
def containsSub (hay needle : List Char) : Bool :=
  match hay with
  | [] => needle.isEmpty
  | _ :: rest => hay.take needle.length == needle || containsSub rest needle

/-- JS-style lowercasing of a string, character by character. -/
def jsToLower (s : String) : String :=
  String.mk (s.data.map Char.toLower)

/-- Decimal digit value of a character, if it is a digit. -/
def digitVal (c : Char) : Nat := c.toNat - 48

/-- Split a leading run of decimal digits from a character list. -/
def takeDigits : List Char → (List Nat × List Char)
  | [] => ([], [])
  | c :: rest =>
      if c.isDigit then
        let p := takeDigits rest
        (digitVal c :: p.1, p.2)
      else ([], c :: rest)

/-- Value of a digit list read as an integer. -/
def digitsVal (ds : List Nat) : Int :=
  ds.foldl (fun acc d => acc * 10 + (d : Int)) 0

/-- A parsed JS number as a scaled decimal: the value is
mantissa * 10 ^ exp10. Rational arithmetic is kept out of the parser so
that every computation reduces inside the kernel; DecNum.toRat gives
the denoted rational. (IEEE double rounding is not modelled; all
numbers in play are small decimals it represents differently only
beyond 15 significant digits.) -/
structure DecNum where
  mantissa : Int
  exp10 : Int
  deriving DecidableEq, Repr

/-- The rational number a DecNum denotes. -/
def DecNum.toRat (d : DecNum) : Rat :=
  (d.mantissa : Rat) * (10 : Rat) ^ d.exp10

/-- Negation of a parsed number. -/
def DecNum.neg (d : DecNum) : DecNum :=
  { mantissa := -d.mantissa, exp10 := d.exp10 }

/-- Leading sign, returning (negative?, rest). A leading plus or minus
sign is consumed (JS Number and parseFloat both accept either). -/
def takeSign : List Char → (Bool × List Char)
  | '-' :: rest => (true, rest)
  | '+' :: rest => (false, rest)
  | cs => (false, cs)

/-- Mantissa of a JS decimal literal: digits, optional point, digits;
at least one digit overall. Returns (value, rest) or none. -/
def takeMantissa (cs : List Char) : Option (DecNum × List Char) :=
  let pInt := takeDigits cs
  match pInt.2 with
  | '.' :: afterDot =>
      let pFrac := takeDigits afterDot
      if pInt.1.isEmpty && pFrac.1.isEmpty then none
      else some ({ mantissa := digitsVal (pInt.1 ++ pFrac.1),
                   exp10 := -(pFrac.1.length : Int) }, pFrac.2)
  | _ =>
      if pInt.1.isEmpty then none
      else some ({ mantissa := digitsVal pInt.1, exp10 := 0 }, pInt.2)

/-- Exponent suffix e/E sign? digits. Returns (scaled value, rest);
when the suffix is absent or incomplete the input is left untouched
(parseFloat ignores a dangling exponent marker). -/
def takeExponent (v : DecNum) (cs : List Char) : (DecNum × List Char) :=
  match cs with
  | c :: rest =>
      if c = 'e' || c = 'E' then
        let pS := takeSign rest
        let pD := takeDigits pS.2
        if pD.1.isEmpty then (v, cs)
        else
          let e : Int := ((pD.1.foldl (fun acc d => acc * 10 + d) 0 : Nat) : Int)
          if pS.1 then ({ mantissa := v.mantissa, exp10 := v.exp10 - e }, pD.2)
          else ({ mantissa := v.mantissa, exp10 := v.exp10 + e }, pD.2)
      else (v, cs)
  | [] => (v, cs)

/-- JS parseFloat: skip leading whitespace, optional sign, longest valid
decimal prefix; none models NaN (no parseable prefix). Trailing junk is
ignored. Infinity is not modelled. -/
def parseFloatJS (s : String) : Option DecNum :=
  let cs := s.data.dropWhile Char.isWhitespace
  let pS := takeSign cs
  match takeMantissa pS.2 with
  | none => none
  | some (v, rest) =>
      let pE := takeExponent v rest
      some (if pS.1 then DecNum.neg pE.1 else pE.1)

/-- JS Number(string) coercion: trim whitespace on both ends, empty
string is 0, otherwise the whole remaining text must be one decimal
literal; none models NaN. Hex literals and Infinity are not modelled. -/
def jsNumber (s : String) : Option DecNum :=
  let cs := (s.data.dropWhile Char.isWhitespace).reverse.dropWhile Char.isWhitespace
  let cs := cs.reverse
  if cs.isEmpty then some { mantissa := 0, exp10 := 0 }
  else
    let pS := takeSign cs
    match takeMantissa pS.2 with
    | none => none
    | some (v, rest) =>
        let pE := takeExponent v rest
        if pE.2.isEmpty then some (if pS.1 then DecNum.neg pE.1 else pE.1) else none

/-- JS parseInt with radix 10 left implicit: skip whitespace, optional
sign, leading digit run; none models NaN. -/
def parseIntJS (s : String) : Option Int :=
  let cs := s.data.dropWhile Char.isWhitespace
  let pS := takeSign cs
  let pD := takeDigits pS.2
  if pD.1.isEmpty then none
  else
    let n : Nat := pD.1.foldl (fun acc d => acc * 10 + d) 0
    some (if pS.1 then -(n : Int) else (n : Int))

/-- JSON values, the image of JSON.parse. -/
inductive JVal where
  | jnull : JVal
  | jbool : Bool → JVal
  | jnum : DecNum → JVal
  | jstr : String → JVal
  | jarr : List JVal → JVal
  | jobj : List (String × JVal) → JVal

/-- JSON insignificant whitespace. -/
def isJsonWs (c : Char) : Bool :=
  c = ' ' || c = '\t' || c = '\n' || c = '\r'

/-- Drop leading JSON whitespace. -/
def skipWs (cs : List Char) : List Char :=
  cs.dropWhile isJsonWs

/-- Hex digit value, if the character is a hex digit. -/
def hexVal (c : Char) : Option Nat :=
  if c.isDigit then some (c.toNat - 48)
  else if 'a' ≤ c ∧ c ≤ 'f' then some (c.toNat - 87)
  else if 'A' ≤ c ∧ c ≤ 'F' then some (c.toNat - 55)
  else none

/-- Body of a JSON string after the opening quote: returns the decoded
characters and the rest of the input after the closing quote. -/
def parseStringRest : List Char → Option (List Char × List Char)
  | [] => none
  | c :: rest =>
      if c = '"' then some ([], rest)
      else if c = '\\' then
        match rest with
        | [] => none
        | e :: rest2 =>
            if e = 'u' then
              match rest2 with
              | h1 :: h2 :: h3 :: h4 :: rest3 =>
                  match hexVal h1, hexVal h2, hexVal h3, hexVal h4 with
                  | some a, some b, some c4, some d =>
                      match parseStringRest rest3 with
                      | some (tail, after) =>
                          some (Char.ofNat (((a * 16 + b) * 16 + c4) * 16 + d) :: tail, after)
                      | none => none
                  | _, _, _, _ => none
              | _ => none
            else
              let dec : Option Char :=
                if e = '"' then some '"'
                else if e = '\\' then some '\\'
                else if e = '/' then some '/'
                else if e = 'b' then some (Char.ofNat 8)
                else if e = 'f' then some (Char.ofNat 12)
                else if e = 'n' then some '\n'
                else if e = 'r' then some '\r'
                else if e = 't' then some '\t'
                else none
              match dec with
              | none => none
              | some d =>
                  match parseStringRest rest2 with
                  | some (tail, after) => some (d :: tail, after)
                  | none => none
      else
        match parseStringRest rest with
        | some (tail, after) => some (c :: tail, after)
        | none => none

/-- JSON number: optional minus, digits, optional fraction, optional
exponent (JSON does not allow a leading plus; this parser is reused from
the JS mantissa helpers, which also accept forms such as ".5" that
strict JSON rejects — no claim depends on that corner). -/
def parseJsonNumber (cs : List Char) : Option (DecNum × List Char) :=
  let pS := takeSign cs
  match takeMantissa pS.2 with
  | none => none
  | some (v, rest) =>
      let pE := takeExponent v rest
      some (if pS.1 then DecNum.neg pE.1 else pE.1, pE.2)

mutual

/-- One JSON value, fuel-bounded recursive descent. -/
def parseJsonValue : Nat → List Char → Option (JVal × List Char)
  | 0, _ => none
  | Nat.succ fuel, cs =>
      match skipWs cs with
      | 'n' :: 'u' :: 'l' :: 'l' :: rest => some (JVal.jnull, rest)
      | 't' :: 'r' :: 'u' :: 'e' :: rest => some (JVal.jbool true, rest)
      | 'f' :: 'a' :: 'l' :: 's' :: 'e' :: rest => some (JVal.jbool false, rest)
      | '"' :: rest =>
          match parseStringRest rest with
          | some (chars, after) => some (JVal.jstr (String.mk chars), after)
          | none => none
      | '{' :: rest =>
          (match skipWs rest with
           | '}' :: after => some (JVal.jobj [], after)
           | body =>
               match parseObjFields fuel body with
               | some (fields, after) => some (JVal.jobj fields, after)
               | none => none)
      | '[' :: rest =>
          (match skipWs rest with
           | ']' :: after => some (JVal.jarr [], after)
           | body =>
               match parseArrElems fuel body with
               | some (elems, after) => some (JVal.jarr elems, after)
               | none => none)
      | other =>
          match parseJsonNumber other with
          | some (q, rest) => some (JVal.jnum q, rest)
          | none => none

/-- Nonempty field list of a JSON object, up to and including the
closing brace. -/
def parseObjFields : Nat → List Char → Option (List (String × JVal) × List Char)
  | 0, _ => none
  | Nat.succ fuel, cs =>
      match skipWs cs with
      | '"' :: rest =>
          match parseStringRest rest with
          | some (keyChars, afterKey) =>
              (match skipWs afterKey with
               | ':' :: afterColon =>
                   match parseJsonValue fuel afterColon with
                   | some (v, afterVal) =>
                       (match skipWs afterVal with
                        | ',' :: afterComma =>
                            (match parseObjFields fuel afterComma with
                             | some (fields, after) =>
                                 some ((String.mk keyChars, v) :: fields, after)
                             | none => none)
                        | '}' :: after => some ([(String.mk keyChars, v)], after)
                        | _ => none)
                   | none => none
               | _ => none)
          | none => none
      | _ => none

/-- Nonempty element list of a JSON array, up to and including the
closing bracket. -/
def parseArrElems : Nat → List Char → Option (List JVal × List Char)
  | 0, _ => none
  | Nat.succ fuel, cs =>
      match parseJsonValue fuel cs with
      | some (v, afterVal) =>
          (match skipWs afterVal with
           | ',' :: afterComma =>
               (match parseArrElems fuel afterComma with
                | some (elems, after) => some (v :: elems, after)
                | none => none)
           | ']' :: after => some ([v], after)
           | _ => none)
      | none => none

end

/-- JSON.parse: parse one value, demand only whitespace after it;
none models a thrown SyntaxError. -/
def jsonParse (s : String) : Option JVal :=
  match parseJsonValue (2 * s.length + 8) s.data with
  | some (v, rest) => if (skipWs rest).isEmpty then some v else none
  | none => none

/-- Association lookup on parsed JSON object fields. -/
def lookupJ (fields : List (String × JVal)) (k : String) : Option JVal :=
  match fields with
  | [] => none
  | (k2, v) :: rest => if k2 = k then some v else lookupJ rest k

/-- JS truthiness of a parsed JSON value (JSON cannot denote NaN, so
jnum is truthy exactly when nonzero). -/
def jvalTruthy : JVal → Bool
  | JVal.jnull => false
  | JVal.jbool b => b
  | JVal.jnum d => d.mantissa != 0
  | JVal.jstr s => s != ""
  | JVal.jarr _ => true
  | JVal.jobj _ => true

/-- JS coercion of a value to a property key, approximated: strings are
themselves; integers print in decimal; other numbers are approximated
as num/den (JS would print a decimal expansion); the remaining cases
follow String(v). Only the string case is reachable from well-formed
metadata and only it is exercised by any claim. -/
def jvalPropKey : JVal → String
  | JVal.jstr s => s
  | JVal.jnum d =>
      if d.exp10 = 0 then toString d.mantissa
      else toString d.mantissa ++ "e" ++ toString d.exp10
  | JVal.jbool b => if b then "true" else "false"
  | JVal.jnull => "null"
  | JVal.jarr _ => ""
  | JVal.jobj _ => "[object Object]"

/-- The target_column property of the parsed metadata document.
A non-object value yields undefined (none); reading the property off
null throws in JS, but that throw is caught by the same catch block and
produces the same fallback, so none also models it faithfully. -/
def metaTargetColumn : JVal → Option JVal
  | JVal.jobj fields => lookupJ fields "target_column"
  | _ => none

/-- Target-column resolution of loadData (lines 24-32 of the backend):
start from the fallback "sales"; if the metadata file exists, read and
JSON-parse it, and when meta.target_column is truthy adopt it; any
exception (unreadable file, malformed JSON, null document) is caught
and leaves the fallback in place. metaContent = none models an absent
or unreadable metadata file. -/
def resolveTargetCol (metaContent : Option String) : String :=
  match metaContent with
  | none => "sales"
  | some content =>
      match jsonParse content with
      | none => "sales"
      | some meta =>
          match metaTargetColumn meta with
          | some v => if jvalTruthy v then jvalPropKey v else "sales"
          | none => "sales"

/-- A dynamically-typed JS cell value as it appears on a row object
after normalization: undefined, a string, or a number (none = NaN). -/
inductive JSVal where
  | undef : JSVal
  | str : String → JSVal
  | num : Option DecNum → JSVal
  deriving DecidableEq, Repr

/-- JS truthiness: undefined, NaN, 0 and "" are falsy. -/
def jsTruthy : JSVal → Bool
  | JSVal.undef => false
  | JSVal.str s => s != ""
  | JSVal.num none => false
  | JSVal.num (some d) => d.mantissa != 0

/-- Global isNaN: coerces with Number first, so isNaN(undefined) is
true and isNaN("") is false (Number("") is 0). -/
def jsIsNaN : JSVal → Bool
  | JSVal.undef => true
  | JSVal.num none => true
  | JSVal.num (some _) => false
  | JSVal.str s => (jsNumber s).isNone

/-- One record as produced by the CSV parser: column name to cell text,
in column order, keys unique. -/
def RawRow : Type := List (String × String)

/-- The key scan of the dynamic date mapping (line 42): first column
whose lowercased name contains "date" or "time". -/
def findDateKey (row : RawRow) : Option String :=
  (List.map Prod.fst row).find? (fun k =>
    containsSub (jsToLower k).data "date".data
      || containsSub (jsToLower k).data "time".data)

/-- row.date after the dynamic date mapping (lines 38-44): keep a
truthy existing date cell; otherwise alias the first date-like column
if any (note the scan can rediscover a falsy "date" column itself);
otherwise the field is left as it was (empty or undefined). -/
def normalizedDate (row : RawRow) : JSVal :=
  let orig : JSVal :=
    match lookupRow row "date" with
    | some v => JSVal.str v
    | none => JSVal.undef
  if jsTruthy orig then orig
  else
    match findDateKey row with
    | some k =>
        match lookupRow row k with
        | some v => JSVal.str v
        | none => orig
    | none => orig

/-- row.sales after the dynamic target mapping (lines 46-51): if the
resolved target column is present (row[targetCol] !== undefined), its
parseFloat; else if the literal sales cell is truthy, its parseFloat;
else the field keeps its prior value (an empty string stays a string,
an absent cell stays undefined). -/
def normalizedSales (targetCol : String) (row : RawRow) : JSVal :=
  match lookupRow row targetCol with
  | some v => JSVal.num (parseFloatJS v)
  | none =>
      match lookupRow row "sales" with
      | some v => if v != "" then JSVal.num (parseFloatJS v) else JSVal.str v
      | none => JSVal.undef

/-- Best-effort marketing_spend parse (line 54): parseFloat only when
the cell is present and truthy. -/
def normalizedMarketing (row : RawRow) : JSVal :=
  match lookupRow row "marketing_spend" with
  | some v => if v != "" then JSVal.num (parseFloatJS v) else JSVal.str v
  | none => JSVal.undef

/-- Best-effort holiday parse (line 55): parseInt only when the cell is
present and truthy. -/
def normalizedHoliday (row : RawRow) : JSVal :=
  match lookupRow row "holiday" with
  | some v =>
      if v != "" then
        JSVal.num ((parseIntJS v).map (fun i => { mantissa := i, exp10 := 0 }))
      else JSVal.str v
  | none => JSVal.undef

/-- One cached row: the normalized fields plus the raw record they came
from. -/
structure CachedRow where
  date : JSVal
  sales : JSVal
  marketingSpend : JSVal
  holiday : JSVal
  raw : List (String × String)
  deriving DecidableEq, Repr

/-- The per-record data handler of loadData (lines 37-61): normalize,
then push iff row.date is truthy and isNaN(row.sales) is false. -/
def processRow (targetCol : String) (row : RawRow) : Option CachedRow :=
  let d := normalizedDate row
  let s := normalizedSales targetCol row
  if jsTruthy d && !(jsIsNaN s) then
    some { date := d, sales := s, marketingSpend := normalizedMarketing row,
           holiday := normalizedHoliday row, raw := row }
  else none

/-- The rows appended to the cache by one complete loadData stream over
the given parsed records, with the target column resolved from the
given metadata content. -/
def loadRows (metaContent : Option String) (rows : List RawRow) : List CachedRow :=
  rows.filterMap (processRow (resolveTargetCol metaContent))

/-- The module-level mutable state of the server: the Tabular Cache
(salesData, line 16) and the Dataset Reference (currentDataFile,
line 18). -/
structure ServerState where
  salesData : List CachedRow
  currentDataFile : String
  deriving DecidableEq, Repr

/-- A queued asynchronous stream read: calling loadData only initiates
the CSV read; the data and end events run on later event-loop turns,
after the calling handler (response send included) has finished. -/
inductive LoadTask where
  | reload : LoadTask
  deriving DecidableEq, Repr

/-- Responses of the /api/upload route. -/
inductive UploadResponse where
  | ok : String → String → UploadResponse
  | noFile : UploadResponse
  | launchFail : String → UploadResponse
  | trainFail : String → UploadResponse
  deriving DecidableEq, Repr

/-- The close handler of the training process (lines 151-162): on exit
code 0 it clears the cache, calls loadData — which only ENQUEUES the
stream read — and sends the 200 response; on nonzero exit it sends the
500 response with the buffered stdout and touches nothing. Returns
(state after the handler, tasks enqueued, response sent). -/
def trainClose (code : Int) (output : String) (s : ServerState) :
    ServerState × List LoadTask × UploadResponse :=
  if code = 0 then
    ({ s with salesData := [] }, [LoadTask.reload],
      UploadResponse.ok "Data updated and model retrained successfully" output)
  else
    (s, [], UploadResponse.trainFail output)

/-- Executing a queued stream read on a later event-loop turn:
metaContent is the metadata file content at that time (none = absent or
unreadable), csvRows the parsed records of the current data file (none
= file absent, in which case loadData leaves the cache alone). The
data events append to whatever is in salesData. -/
def runReloadTask (metaContent : Option String) (csvRows : Option (List RawRow))
    (s : ServerState) : ServerState :=
  match csvRows with
  | some rows => { s with salesData := s.salesData ++ loadRows metaContent rows }
  | none => s

/-- Deletion predicate of the pre-training cleanup (lines 103-107):
a CSV other than the uploaded file, any .pkl artifact, or the metadata
document. -/
def deleteTarget (uploadedName fileName : String) : Bool :=
  (endsWithJS fileName ".csv" && fileName != uploadedName)
    || endsWithJS fileName ".pkl"
    || fileName == "model_metadata.json"

/-- The cleanup loop (lines 97-115): one try/catch wraps the whole
forEach, so the first deletion that throws aborts the loop and every
later file survives untouched. Returns the surviving directory
listing; throws says which unlink calls would throw. -/
def cleanupRun (uploadedName : String) (throws : String → Bool) :
    List String → List String
  | [] => []
  | f :: rest =>
      if deleteTarget uploadedName f then
        if throws f then f :: rest
        else cleanupRun uploadedName throws rest
      else f :: cleanupRun uploadedName throws rest

/-- Outcome of the spawned training process: the error event (spawn
failure) or the close event with an exit code and the accumulated
stdout. -/
inductive TrainOutcome where
  | launchError : String → TrainOutcome
  | exited : Int → String → TrainOutcome
  deriving DecidableEq, Repr

/-- The synchronous part of the /api/upload handler (lines 90-133):
reject when no file was sent (before any side effect); otherwise run
the cleanup and update currentDataFile, then spawn training. Returns
(state, surviving directory files, early response if any). -/
def uploadStart (file : Option String) (dirFiles : List String)
    (throws : String → Bool) (s : ServerState) :
    ServerState × List String × Option UploadResponse :=
  match file with
  | none => (s, dirFiles, some UploadResponse.noFile)
  | some name =>
      let survivors := cleanupRun name throws dirFiles
      ({ s with currentDataFile := name }, survivors, none)

/-- The asynchronous tail of the upload: the training process outcome
dispatched to the error handler (lines 137-140) or the close handler. -/
def uploadFinish (outcome : TrainOutcome) (s : ServerState) :
    ServerState × List LoadTask × UploadResponse :=
  match outcome with
  | TrainOutcome.launchError msg => (s, [], UploadResponse.launchFail msg)
  | TrainOutcome.exited code output => trainClose code output s

/-- Responses of the /api/predict route close handler. -/
inductive PredictResponse where
  | ok : JVal → PredictResponse
  | fail : String → PredictResponse

/-- Index of the first brace, as dataString.indexOf of line 256. -/
def firstBraceIdx (cs : List Char) : Option Nat :=
  cs.findIdx? (fun c => c == '{')

/-- Index of the last closing brace, as dataString.lastIndexOf of
line 257. -/
def lastCloseIdx (cs : List Char) : Option Nat :=
  match cs.reverse.findIdx? (fun c => c == '}') with
  | some k => some (cs.length - 1 - k)
  | none => none

/-- JS String.prototype.substring: clamp both indices to the string
length and swap them when start exceeds end. -/
def jsSubstring (s : String) (a b : Nat) : String :=
  let a := min a s.length
  let b := min b s.length
  String.mk ((s.data.drop (min a b)).take (max a b - min a b))

/-- The JSON extraction of the predict close handler (lines 256-263):
substring from the first brace to the last closing brace, JSON-parsed;
none models the thrown error path (no brace found, or parse failure). -/
def extractJsonPart (dataString : String) : Option JVal :=
  match firstBraceIdx dataString.data, lastCloseIdx dataString.data with
  | some i, some j => jsonParse (jsSubstring dataString i (j + 1))
  | _, _ => none

/-- The close handler of the inference process (lines 253-269): respond
200 with the parsed object, or 500 with the raw captured text as
details. The exit code is bound by the handler but never consulted. -/
def predictClose (code : Int) (dataString : String) : PredictResponse :=
  match extractJsonPart dataString with
  | some v => PredictResponse.ok v
  | none => PredictResponse.fail dataString

/-- With no deletion throwing, the cleanup loop is exactly a filter by
the deletion predicate. -/
theorem cleanupRun_noThrow (u : String) (l : List String) :
    cleanupRun u (fun _ => false) l = l.filter (fun f => !(deleteTarget u f)) := by
  induction l with
  | nil => rfl
  | cons f rest ih =>
      by_cases h : deleteTarget u f
      · simp [cleanupRun, h, ih]
      · simp [cleanupRun, h, ih]

/-- C2: a training process that exits nonzero produces the 500 response
carrying the accumulated stdout as details, and the server state — the
Tabular Cache included — is exactly the pre-call state; no tasks are
enqueued. -/
theorem C2_train_failure_leaves_cache_unchanged (code : Int) (output : String)
    (s : ServerState) (h : code ≠ 0) :
    trainClose code output s = (s, [], UploadResponse.trainFail output) := by
  unfold trainClose
  simp [h]

/-- Witness for C2 at exit code 1. -/
theorem C2_witness :
    (1 : Int) ≠ 0 ∧
      trainClose 1 "Traceback" { salesData := [], currentDataFile := "sales_data.csv" }
        = ({ salesData := [], currentDataFile := "sales_data.csv" }, [],
            UploadResponse.trainFail "Traceback") :=
  ⟨by decide,
    C2_train_failure_leaves_cache_unchanged 1 "Traceback"
      { salesData := [], currentDataFile := "sales_data.csv" } (by decide)⟩

/-- C3: when no individual deletion throws, the cleanup before training
keeps the uploaded file (provided the uploaded name is itself not a
deletion target, as for any fresh .csv), removes every other .csv, every
.pkl artifact and the metadata document, and the surviving listing is
independent of the training outcome (the close handlers never touch the
directory). -/
theorem C3_cleanup_invariant (uploaded : String) (dirFiles : List String)
    (hup : deleteTarget uploaded uploaded = false) :
    (uploaded ∈ dirFiles → uploaded ∈ cleanupRun uploaded (fun _ => false) dirFiles)
    ∧ (∀ f ∈ cleanupRun uploaded (fun _ => false) dirFiles,
        endsWithJS f ".pkl" = false ∧ f ≠ "model_metadata.json"
          ∧ (endsWithJS f ".csv" = true → f = uploaded))
    ∧ (∀ f ∈ dirFiles, deleteTarget uploaded f = true →
        f ∉ cleanupRun uploaded (fun _ => false) dirFiles) := by
  rw [cleanupRun_noThrow]
  refine ⟨?_, ?_, ?_⟩
  · intro hmem
    exact List.mem_filter.mpr ⟨hmem, by simp [hup]⟩
  · intro f hf
    have h2 := (List.mem_filter.mp hf).2
    simp only [Bool.not_eq_true', deleteTarget] at h2
    simp only [Bool.or_eq_false_iff, Bool.and_eq_false_iff] at h2
    refine ⟨h2.1.2, ?_, ?_⟩
    · intro hcontra
      have := h2.2
      simp [hcontra] at this
    · intro hcsv
      rcases h2.1.1 with hc | hne
      · rw [hcsv] at hc; exact absurd hc (by simp)
      · simpa using hne
  · intro f _ htarget hmem
    have h2 := (List.mem_filter.mp hmem).2
    rw [htarget] at h2
    exact absurd h2 (by simp)

/-- Witness for C3: uploading B.csv over A.csv, a model artifact and the
metadata document keeps B.csv and removes the other three. -/
theorem C3_witness :
    "B.csv" ∈ cleanupRun "B.csv" (fun _ => false)
        ["A.csv", "B.csv", "sales_model.pkl", "model_metadata.json"]
    ∧ "A.csv" ∉ cleanupRun "B.csv" (fun _ => false)
        ["A.csv", "B.csv", "sales_model.pkl", "model_metadata.json"]
    ∧ "sales_model.pkl" ∉ cleanupRun "B.csv" (fun _ => false)
        ["A.csv", "B.csv", "sales_model.pkl", "model_metadata.json"]
    ∧ "model_metadata.json" ∉ cleanupRun "B.csv" (fun _ => false)
        ["A.csv", "B.csv", "sales_model.pkl", "model_metadata.json"] := by
  have h := C3_cleanup_invariant "B.csv"
    ["A.csv", "B.csv", "sales_model.pkl", "model_metadata.json"] (by decide)
  exact ⟨h.1 (by decide),
    h.2.2 "A.csv" (by decide) (by decide),
    h.2.2 "sales_model.pkl" (by decide) (by decide),
    h.2.2 "model_metadata.json" (by decide) (by decide)⟩

/-- C10: one try/catch wraps the whole deletion loop, so when the first
throwing deletion is reached every remaining file of the listing —
deletion target or not — survives, while the targets before it were
already deleted; and the upload still proceeds to training (no early
response is produced by the cleanup). -/
theorem C10_cleanup_abort_leaves_rest (uploaded : String) (throws : String → Bool)
    (pre post : List String) (f : String) (s : ServerState)
    (hpre : ∀ g ∈ pre, deleteTarget uploaded g = true → throws g = false)
    (hf : deleteTarget uploaded f = true) (hthrow : throws f = true) :
    cleanupRun uploaded throws (pre ++ f :: post)
      = pre.filter (fun g => !(deleteTarget uploaded g)) ++ f :: post
    ∧ (uploadStart (some uploaded) (pre ++ f :: post) throws s).2.2 = none := by
  constructor
  · induction pre with
    | nil => simp [cleanupRun, hf, hthrow]
    | cons g rest ih =>
        have hg := hpre g (by simp)
        have hrest : ∀ g2 ∈ rest, deleteTarget uploaded g2 = true → throws g2 = false := by
          intro g2 hmem
          exact hpre g2 (by simp [hmem])
        by_cases hdel : deleteTarget uploaded g
        · simp [cleanupRun, hdel, hg hdel, ih hrest]
        · simp [cleanupRun, hdel, ih hrest]
  · rfl

/-- Witness for C10: deleting sales_model.pkl throws, so the metadata
document and a stale A2.csv after it survive the cleanup, while A.csv
before it was deleted; the upload still spawns training. -/
theorem C10_witness :
    cleanupRun "B.csv" (fun g => g == "sales_model.pkl")
        ["A.csv", "sales_model.pkl", "model_metadata.json", "A2.csv", "B.csv"]
      = ["sales_model.pkl", "model_metadata.json", "A2.csv", "B.csv"]
    ∧ (uploadStart (some "B.csv")
        ["A.csv", "sales_model.pkl", "model_metadata.json", "A2.csv", "B.csv"]
        (fun g => g == "sales_model.pkl")
        { salesData := [], currentDataFile := "sales_data.csv" }).2.2 = none := by
  have h := C10_cleanup_abort_leaves_rest "B.csv" (fun g => g == "sales_model.pkl")
    ["A.csv"] ["model_metadata.json", "A2.csv", "B.csv"] "sales_model.pkl"
    { salesData := [], currentDataFile := "sales_data.csv" }
    (by intro g hg _; fin_cases hg; decide) (by decide) (by decide)
  refine ⟨?_, h.2⟩
  have hsplit :
      (["A.csv", "sales_model.pkl", "model_metadata.json", "A2.csv", "B.csv"] : List String)
        = ["A.csv"] ++ ["sales_model.pkl", "model_metadata.json", "A2.csv", "B.csv"] := rfl
  rw [hsplit, h.1]
  decide

/-- C8 as stated is false: an accepted upload whose training exits
nonzero still replaces the Dataset Reference — currentDataFile is
assigned before the training process is spawned. Concretely, uploading
B.csv over an initial reference sales_data.csv and failing training
with exit code 1 leaves the reference at B.csv, not sales_data.csv. -/
theorem C8_counterexample :
    ((uploadFinish (TrainOutcome.exited 1 "boom")
        (uploadStart (some "B.csv") ["A.csv"] (fun _ => false)
          { salesData := [], currentDataFile := "sales_data.csv" }).1).1).currentDataFile
      = "B.csv"
    ∧ "B.csv" ≠ "sales_data.csv" := by
  exact ⟨rfl, by decide⟩

/-- C8 amended: every accepted upload (a request that carries a file)
replaces the Dataset Reference with the uploaded name before training
starts, whatever the training outcome; a rejected no-file request
leaves the whole state untouched; and the training error/close
handlers themselves never modify the reference. -/
theorem C8_dataset_reference_on_accept (name : String) (dirFiles : List String)
    (throws : String → Bool) (s : ServerState) (outcome : TrainOutcome) :
    ((uploadFinish outcome (uploadStart (some name) dirFiles throws s).1).1).currentDataFile
      = name
    ∧ (uploadStart none dirFiles throws s).1 = s
    ∧ ∀ s2 : ServerState,
        ((uploadFinish outcome s2).1).currentDataFile = s2.currentDataFile := by
  refine ⟨?_, rfl, ?_⟩
  · cases outcome with
    | launchError msg => rfl
    | exited code output =>
        unfold uploadFinish uploadStart trainClose
        by_cases h : code = 0 <;> simp [h]
  · intro s2
    cases outcome with
    | launchError msg => rfl
    | exited code output =>
        unfold uploadFinish trainClose
        by_cases h : code = 0 <;> simp [h]

/-- C1 as stated is false: loadData only initiates the asynchronous
CSV stream, so the success response of the close handler is sent while
salesData is the freshly cleared empty list, not the reloaded rows.
Concretely, for a training run that exits 0 over a dataset holding one
loadable record, the 200 response is produced while the cache is empty,
yet the fully reloaded cache for that dataset is nonempty. -/
theorem C1_counterexample :
    (trainClose 0 "done" { salesData := [], currentDataFile := "B.csv" }).2.2
      = UploadResponse.ok "Data updated and model retrained successfully" "done"
    ∧ (trainClose 0 "done" { salesData := [], currentDataFile := "B.csv" }).1.salesData
      = []
    ∧ loadRows none [[("date", "2025-01-01"), ("sales", "5")]] ≠ [] := by
  refine ⟨rfl, rfl, ?_⟩
  decide

/-- C1 amended: within one train() call the close handler on zero exit
does run strictly after that exit and before the response — it clears
the cache, enqueues the asynchronous stream reload, and only then sends
the 200 response carrying the accumulated stdout; but the reload
completes on a later event-loop turn, so at response time the cache is
empty, and only once the queued stream read has run does it hold
exactly the filtered rows of the current dataset. -/
theorem C1_reload_async (output : String) (s : ServerState)
    (meta : Option String) (rows : List RawRow) :
    (trainClose 0 output s).1.salesData = []
    ∧ (trainClose 0 output s).2.1 = [LoadTask.reload]
    ∧ (trainClose 0 output s).2.2
        = UploadResponse.ok "Data updated and model retrained successfully" output
    ∧ (runReloadTask meta (some rows) (trainClose 0 output s).1).salesData
        = loadRows meta rows := by
  refine ⟨rfl, rfl, rfl, ?_⟩
  show (trainClose 0 output s).1.salesData ++ loadRows meta rows = loadRows meta rows
  show ([] : List CachedRow) ++ loadRows meta rows = loadRows meta rows
  simp

/-- A cell that is a non-empty string. -/
def isNonEmptyStr : JSVal → Bool
  | JSVal.str s => s != ""
  | _ => false

/-- isNaN on a number cell is exactly NaN-ness. -/
theorem jsIsNaN_num (o : Option DecNum) : jsIsNaN (JSVal.num o) = o.isNone := by
  cases o <;> rfl

/-- The normalized date field is always a string cell or undefined. -/
theorem normalizedDate_shape (row : RawRow) :
    normalizedDate row = JSVal.undef ∨ ∃ s : String, normalizedDate row = JSVal.str s := by
  unfold normalizedDate
  cases hd : lookupRow row "date" with
  | none =>
      cases hk : findDateKey row with
      | none => simp [jsTruthy]
      | some k =>
          cases hv : lookupRow row k with
          | none => simp [hv, jsTruthy]
          | some v => simp [hv, jsTruthy]
  | some v =>
      by_cases ht : jsTruthy (JSVal.str v)
      · simp [ht]
      · cases hk : findDateKey row with
        | none => simp [ht]
        | some k =>
            cases hv : lookupRow row k with
            | none => simp [hv, ht]
            | some v2 => simp [hv, ht]

/-- The push condition of the row handler, isolated: a row is cached
iff its normalized date is truthy and its normalized sales value is not
NaN under the JS isNaN coercion. -/
theorem processRow_isSome (targetCol : String) (row : RawRow) :
    (processRow targetCol row).isSome
      = (jsTruthy (normalizedDate row) && !(jsIsNaN (normalizedSales targetCol row))) := by
  by_cases h : jsTruthy (normalizedDate row) && !(jsIsNaN (normalizedSales targetCol row))
  · simp [processRow, h]
  · simp only [Bool.not_eq_true] at h
    simp [processRow, h]

/-- C4 amended, the parts that hold: (1) a record is cached iff its
normalized date is truthy and its normalized sales is not NaN under JS
coercion; (2) every cached record has a non-empty string date; (3) when
the resolved target column is present on the row, being cached
coincides with the target value parsing under parseFloat; (4) a record
with no date column and no date-like column is never cached. (The
claim's further assertion that every cached record has a numeric sales
value fails, see the counterexample.) -/
theorem C4_row_filtering (targetCol : String) (row : RawRow) :
    ((processRow targetCol row).isSome
        = (jsTruthy (normalizedDate row) && !(jsIsNaN (normalizedSales targetCol row))))
    ∧ (∀ r : CachedRow, processRow targetCol row = some r → isNonEmptyStr r.date = true)
    ∧ (∀ v : String, lookupRow row targetCol = some v →
        (processRow targetCol row).isSome
          = (jsTruthy (normalizedDate row) && !((parseFloatJS v).isNone)))
    ∧ (lookupRow row "date" = none → findDateKey row = none →
        processRow targetCol row = none) := by
  refine ⟨processRow_isSome targetCol row, ?_, ?_, ?_⟩
  · intro r hr
    have hcond : (jsTruthy (normalizedDate row)
        && !(jsIsNaN (normalizedSales targetCol row))) = true := by
      rw [← processRow_isSome, hr]
      rfl
    unfold processRow at hr
    rw [if_pos hcond] at hr
    have htruthy : jsTruthy (normalizedDate row) = true :=
      ((Bool.and_eq_true _ _).mp hcond).1
    cases hr
    rcases normalizedDate_shape row with hshape | ⟨s, hshape⟩
    · rw [hshape] at htruthy
      exact absurd htruthy (by simp [jsTruthy])
    · show isNonEmptyStr (normalizedDate row) = true
      rw [hshape] at htruthy ⊢
      simpa [isNonEmptyStr, jsTruthy] using htruthy
  · intro v hv
    have hs : normalizedSales targetCol row = JSVal.num (parseFloatJS v) := by
      simp [normalizedSales, hv]
    rw [processRow_isSome, hs, jsIsNaN_num]
  · intro h1 h2
    have hd : normalizedDate row = JSVal.undef := by
      simp [normalizedDate, h1, h2, jsTruthy]
    simp [processRow, hd, jsTruthy]

/-- Witness for C4: a row with only an order_date column is cached via
the date alias (target present and parseable), and a row with no
date-like column at all is dropped. -/
theorem C4_witness :
    (processRow "sales" [("order_date", "2025-03-01"), ("sales", "5")]).isSome = true
    ∧ processRow "sales" [("region", "North"), ("sales", "5")] = none := by
  have h1 := C4_row_filtering "sales" [("order_date", "2025-03-01"), ("sales", "5")]
  have h2 := C4_row_filtering "sales" [("region", "North"), ("sales", "5")]
  constructor
  · rw [h1.2.2.1 "5" (by decide)]
    decide
  · exact h2.2.2.2 (by decide) (by decide)

/-- C4 as stated is false: with the metadata document declaring target
column revenue, a row whose revenue column is absent and whose literal
sales cell is the empty string is cached anyway — isNaN("") is false
because Number("") is 0 — and its sales field is the empty string, not
a number; yet the empty string does not parse under parseFloat. -/
theorem C4_counterexample :
    loadRows (some "\x7b\"target_column\": \"revenue\"\x7d")
        [[("date", "2025-01-01"), ("sales", "")]]
      = [{ date := JSVal.str "2025-01-01", sales := JSVal.str "",
           marketingSpend := JSVal.undef, holiday := JSVal.undef,
           raw := [("date", "2025-01-01"), ("sales", "")] }]
    ∧ parseFloatJS "" = none
    ∧ jsNumber "" = some { mantissa := 0, exp10 := 0 } := by
  refine ⟨?_, rfl, rfl⟩
  rfl

/-- C5: with the metadata document declaring target_column "revenue",
any cached row whose raw record carries a revenue column has its sales
field equal to the parseFloat of the revenue cell — the literal sales
column never feeds it; and the literal sales column is parsed only
when the declared target column is absent from the row (and the cell
is truthy). -/
theorem C5_target_precedence (row : RawRow) (vRev : String)
    (hrev : lookupRow row "revenue" = some vRev) :
    (∀ r : CachedRow,
        processRow (resolveTargetCol (some "\x7b\"target_column\": \"revenue\"\x7d")) row
          = some r →
        r.sales = JSVal.num (parseFloatJS vRev))
    ∧ (∀ row2 : RawRow, lookupRow row2 "revenue" = none →
        ∀ vS : String, lookupRow row2 "sales" = some vS → vS ≠ "" →
          normalizedSales "revenue" row2 = JSVal.num (parseFloatJS vS)) := by
  have hcol : resolveTargetCol (some "\x7b\"target_column\": \"revenue\"\x7d")
      = "revenue" := rfl
  constructor
  · intro r hr
    rw [hcol] at hr
    have hcond : (jsTruthy (normalizedDate row)
        && !(jsIsNaN (normalizedSales "revenue" row))) = true := by
      rw [← processRow_isSome, hr]
      rfl
    unfold processRow at hr
    rw [if_pos hcond] at hr
    cases hr
    show normalizedSales "revenue" row = _
    simp [normalizedSales, hrev]
  · intro row2 hno vS hvS hne
    simp [normalizedSales, hno, hvS, hne]

/-- Witness for C5: a row carrying date, revenue 100.5 and sales 7 is
cached with sales equal to parseFloat("100.5"), not 7. -/
theorem C5_witness :
    ({ date := JSVal.str "2025-01-01",
       sales := JSVal.num (some { mantissa := 1005, exp10 := -1 }),
       marketingSpend := JSVal.undef, holiday := JSVal.undef,
       raw := [("date", "2025-01-01"), ("revenue", "100.5"), ("sales", "7")] }
        : CachedRow).sales
      = JSVal.num (parseFloatJS "100.5")
    ∧ parseFloatJS "100.5" ≠ parseFloatJS "7"
    ∧ (DecNum.toRat { mantissa := 1005, exp10 := -1 }) = (201 : Rat) / 2 := by
  refine ⟨?_, by decide, by norm_num [DecNum.toRat]⟩
  exact (C5_target_precedence
    [("date", "2025-01-01"), ("revenue", "100.5"), ("sales", "7")] "100.5" rfl).1 _ rfl

/-- C9: when the metadata file content is not valid JSON, the catch in
loadData leaves the fallback target column "sales" in place, and the
reload proceeds exactly as it would with that fallback — loading never
aborts on a malformed metadata document. An absent or unreadable file
(metaContent = none) takes the same fallback by construction. -/
theorem C9_malformed_metadata_falls_back (content : String) (rows : List RawRow)
    (h : jsonParse content = none) :
    resolveTargetCol (some content) = "sales"
    ∧ loadRows (some content) rows = List.filterMap (processRow "sales") rows := by
  have hcol : resolveTargetCol (some content) = "sales" := by
    simp [resolveTargetCol, h]
  refine ⟨hcol, ?_⟩
  unfold loadRows
  rw [hcol]

/-- Witness for C9 on the unparseable document "not json". -/
theorem C9_witness :
    jsonParse "not json" = none
    ∧ resolveTargetCol (some "not json") = "sales"
    ∧ loadRows (some "not json") [[("date", "2025-01-01"), ("sales", "3")]]
        = List.filterMap (processRow "sales") [[("date", "2025-01-01"), ("sales", "3")]] := by
  have h := C9_malformed_metadata_falls_back "not json"
    [[("date", "2025-01-01"), ("sales", "3")]] rfl
  exact ⟨rfl, h.1, h.2⟩

/-- findIdx? finds nothing when the character is absent. -/
theorem findIdx?_none_of_not_mem (c : Char) (cs : List Char) (h : c ∉ cs) :
    cs.findIdx? (fun x => x == c) = none := by
  induction cs with
  | nil => rfl
  | cons d rest ih =>
      rw [List.findIdx?_cons]
      have h1 : (d == c) = false := by
        simp only [beq_eq_false_iff_ne]
        intro hc
        exact h (by simp [hc])
      have h2 : c ∉ rest := fun hc => h (by simp [hc])
      simp [h1, ih h2]

/-- A captured output without an opening brace has no first-brace
index. -/
theorem firstBraceIdx_none (cs : List Char) (h : '{' ∉ cs) :
    firstBraceIdx cs = none := by
  unfold firstBraceIdx
  exact findIdx?_none_of_not_mem _ _ h

/-- A captured output without a closing brace has no last-brace
index. -/
theorem lastCloseIdx_none (cs : List Char) (h : '}' ∉ cs) :
    lastCloseIdx cs = none := by
  unfold lastCloseIdx
  rw [findIdx?_none_of_not_mem _ _ (by simpa using h)]

/-- C6: the close handler of the predict process extracts the text
from the first brace to the last closing brace and JSON-parses it: on
the noisy example output it answers 200 with the object whose
prediction field denotes 42.5; any output missing an opening or a
closing brace, and more generally any output whose extraction fails to
parse, produces the 500 response carrying the raw captured text as
details — all of it independently of the exit code. -/
theorem C6_output_extraction (code : Int) :
    predictClose code "warning: foo\n\x7b\"prediction\": 42.5\x7d\ntrailing\n"
      = PredictResponse.ok
          (JVal.jobj [("prediction", JVal.jnum { mantissa := 425, exp10 := -1 })])
    ∧ DecNum.toRat { mantissa := 425, exp10 := -1 } = (85 : Rat) / 2
    ∧ (∀ code2 : Int, ∀ s : String, ('{' ∉ s.data ∨ '}' ∉ s.data) →
        predictClose code2 s = PredictResponse.fail s)
    ∧ (∀ code2 : Int, ∀ s : String, extractJsonPart s = none →
        predictClose code2 s = PredictResponse.fail s) := by
  refine ⟨rfl, by norm_num [DecNum.toRat], ?_, ?_⟩
  · intro code2 s hs
    have hex : extractJsonPart s = none := by
      unfold extractJsonPart
      rcases hs with h | h
      · rw [firstBraceIdx_none _ h]
      · rw [lastCloseIdx_none _ h]
        cases firstBraceIdx s.data <;> rfl
    unfold predictClose
    rw [hex]
  · intro code2 s hex
    unfold predictClose
    rw [hex]

/-- Witness for C6: the noisy example output yields the 200 response,
and a brace-free output yields the 500 response with the raw text. -/
theorem C6_witness :
    predictClose 0 "warning: foo\n\x7b\"prediction\": 42.5\x7d\ntrailing\n"
      = PredictResponse.ok
          (JVal.jobj [("prediction", JVal.jnum { mantissa := 425, exp10 := -1 })])
    ∧ predictClose 0 "no json here" = PredictResponse.fail "no json here" := by
  have h := C6_output_extraction 0
  exact ⟨h.1, h.2.2.1 0 "no json here" (Or.inl (by decide))⟩

/-- C7: whenever the extraction of the captured output parses — a
domain error object included — the response is 200 carrying that
object verbatim; and the response is a function of the captured text
alone, the exit code of the inference process playing no role. -/
theorem C7_parseable_output_means_200 (code code2 : Int) (s : String) (j : JVal)
    (h : extractJsonPart s = some j) :
    predictClose code s = PredictResponse.ok j
    ∧ predictClose code s = predictClose code2 s := by
  constructor
  · unfold predictClose
    rw [h]
  · rfl

/-- Witness for C7: an error-field object with a nonzero exit code is
still answered 200 with the object verbatim. -/
theorem C7_witness :
    extractJsonPart "\x7b\"error\": \"bad input\"\x7d"
      = some (JVal.jobj [("error", JVal.jstr "bad input")])
    ∧ predictClose 1 "\x7b\"error\": \"bad input\"\x7d"
      = PredictResponse.ok (JVal.jobj [("error", JVal.jstr "bad input")]) := by
  refine ⟨rfl, ?_⟩
  exact (C7_parseable_output_means_200 1 0 "\x7b\"error\": \"bad input\"\x7d"
    (JVal.jobj [("error", JVal.jstr "bad input")]) rfl).1
